import Mathlib

/-!
Shallow embedding of the device discovery / worker supervision / shared-state
subsystem of `run_live_inference_new.py` and the `RateLimiter` of
`postprocess.py`, with theorems settling the specification claims.

Python dicts are modelled as insertion-ordered association lists
(`List (String × α)`); Python lists as Lean lists; thread objects as `Nat`
identifiers; timestamps and scores as rationals; frames as lists of bytes
(`List Nat`), where an empty list models a decoded-but-empty frame.
-/

namespace LiveInference

/-- Lookup in a Python-style dict (`d.get(k)` / `k in d` + `d[k]`). -/
def dictGet {α : Type} (k : String) (d : List (String × α)) : Option α :=
  match d.find? (fun p => p.1 == k) with
  | some p => some p.2
  | none => none

/-- Python dict assignment `d[k] = v`: replaces the value in place if the key
exists, otherwise appends the new binding at the end (insertion order). -/
def dictPut {α : Type} (k : String) (v : α) (d : List (String × α)) :
    List (String × α) :=
  if d.any (fun p => p.1 == k) then
    d.map (fun p => if p.1 == k then (k, v) else p)
  else d ++ [(k, v)]

/-- Python `d.pop(k, None)`: drops the binding for `k` (keys are unique in a
real dict, so filtering all matches coincides with removing the one entry). -/
def dictPop {α : Type} (k : String) (d : List (String × α)) :
    List (String × α) :=
  d.filter (fun p => p.1 != k)

theorem dictGet_nil {α : Type} (k : String) : dictGet (α := α) k [] = none := rfl

theorem dictGet_eq_none_of_not_hasKey {α : Type} (k : String)
    (d : List (String × α)) (h : d.any (fun p => p.1 == k) = false) :
    dictGet k d = none := by
  induction d with
  | nil => rfl
  | cons p d ih =>
    simp only [List.any_cons, Bool.or_eq_false_iff] at h
    simp only [dictGet, List.find?_cons, h.1]
    exact ih h.2

theorem dictGet_cons_of_ne {α : Type} (k : String) (p : String × α)
    (d : List (String × α)) (hp : p.1 ≠ k) :
    dictGet k (p :: d) = dictGet k d := by
  simp [dictGet, List.find?_cons, beq_eq_false_iff_ne.mpr hp]

theorem dictGet_cons_self {α : Type} (k : String) (p : String × α)
    (d : List (String × α)) (hp : p.1 = k) :
    dictGet k (p :: d) = some p.2 := by
  simp [dictGet, List.find?_cons, hp]

theorem dictPop_cons_self {α : Type} (k : String) (p : String × α)
    (d : List (String × α)) (hp : p.1 = k) :
    dictPop k (p :: d) = dictPop k d := by
  simp [dictPop, List.filter_cons, hp]

theorem dictPop_cons_of_ne {α : Type} (k : String) (p : String × α)
    (d : List (String × α)) (hp : p.1 ≠ k) :
    dictPop k (p :: d) = p :: dictPop k d := by
  simp [dictPop, List.filter_cons, bne_iff_ne, hp]

theorem dictGet_dictPop {α : Type} (k : String) (d : List (String × α)) :
    dictGet k (dictPop k d) = none := by
  induction d with
  | nil => rfl
  | cons p d ih =>
    by_cases hp : p.1 = k
    · rw [dictPop_cons_self k p d hp]
      exact ih
    · rw [dictPop_cons_of_ne k p d hp, dictGet_cons_of_ne k p _ hp]
      exact ih

theorem dictPut_cons_of_ne {α : Type} (k : String) (v : α) (p : String × α)
    (d : List (String × α)) (hp : p.1 ≠ k) :
    dictPut k v (p :: d) = p :: dictPut k v d := by
  have hb : (p.1 == k) = false := beq_eq_false_iff_ne.mpr hp
  by_cases hd : d.any (fun q => q.1 == k)
  · simp [dictPut, hd, hb, hp, List.any_cons]
  · simp only [Bool.not_eq_true] at hd
    simp [dictPut, hd, hb, List.any_cons]

theorem dictGet_dictPut {α : Type} (k : String) (v : α)
    (d : List (String × α)) : dictGet k (dictPut k v d) = some v := by
  induction d with
  | nil => simp [dictPut, dictGet]
  | cons p d ih =>
    by_cases hp : p.1 = k
    · have hany : (p :: d).any (fun q => q.1 == k) = true := by
        simp [List.any_cons, hp]
      have hmap : dictPut k v (p :: d) =
          (k, v) :: d.map (fun q => if q.1 == k then (k, v) else q) := by
        simp [dictPut, hany, hp]
      rw [hmap, dictGet_cons_self k (k, v) _ rfl]
    · rw [dictPut_cons_of_ne k v p d hp, dictGet_cons_of_ne k p _ hp]
      exact ih

theorem dictPop_dictPop {α : Type} (k : String) (d : List (String × α)) :
    dictPop k (dictPop k d) = dictPop k d := by
  simp [dictPop, List.filter_filter]

theorem dictPop_hasKey_false {α : Type} (k : String) (d : List (String × α)) :
    (dictPop k d).any (fun p => p.1 == k) = false := by
  induction d with
  | nil => rfl
  | cons p d ih =>
    by_cases hp : p.1 = k
    · rw [dictPop_cons_self k p d hp]
      exact ih
    · rw [dictPop_cons_of_ne k p d hp]
      simp only [List.any_cons, beq_eq_false_iff_ne.mpr hp, Bool.false_or]
      exact ih

/-- An annotated or raw video frame, modelled as its pixel bytes; `[]` models
a frame that decoded but is empty / zero-size. -/
abbrev Frame := List Nat

/-- One detection as produced by `Detector.detect` (a dict with `bbox`,
`score`, `label_name`). -/
structure Detection where
  bbox : List ℚ
  score : ℚ
  label_name : String
  deriving DecidableEq

/-- A record appended to `RESULTS_STORAGE` / `RECENT_DETECTIONS`
(`{"source": ..., "timestamp": ..., "detections": ...}`). -/
structure DetRecord where
  source : String
  timestamp : ℚ
  detections : List Detection
  deriving DecidableEq

/-- The process-wide shared state of `run_live_inference_new.py`:
`DISCOVERED_ARDUINO_IPS`, `DETECTION_THREADS` (thread objects modelled as
`Nat` identifiers handed out by `nextThreadId`), `SHARED_FRAMES_DICT`,
`RESULTS_STORAGE` and `RECENT_DETECTIONS`. -/
structure GlobalState where
  discovered : List String
  threads : List (String × Nat)
  nextThreadId : Nat
  frames : List (String × Frame)
  results : List DetRecord
  recent : List DetRecord
  deriving DecidableEq

/-- `mjpeg_url = f"http:..." ` — the Shared Frame Store key derived from a
device address. -/
def mjpeg_url (ip : String) : String := "http://" ++ ip ++ "/"

/-- Strip leading and trailing whitespace (Python `str.strip()`). -/
def stripChars (cs : List Char) : List Char :=
  ((cs.dropWhile Char.isWhitespace).reverse.dropWhile Char.isWhitespace).reverse

/-- Parsing done by `handshake_listener_continuous` on a received datagram:
`message.startswith("UNO_R4 IP:")`, then
`possible_ip = message.split("UNO_R4 IP:")[1].strip()` and the check
`len(possible_ip.split(".")) == 4` (equivalently: exactly three dots).
We model the text after the first tag occurrence as everything following the
prefix (the Python `split` would stop at a second occurrence of the tag, a
difference visible only on messages containing the tag twice). -/
def parse_announcement (msg : String) : Option String :=
  let tag := "UNO_R4 IP:".toList
  let cs := msg.toList
  if cs.take tag.length = tag then
    let ip := stripChars (cs.drop tag.length)
    if (ip.filter (fun c => c = '.')).length = 3 then some (String.mk ip)
    else none
  else none

/-- `spawn_detection_thread_for_ip`: returns early when a thread handle for
the address is already present; otherwise creates a thread, records it in
`DETECTION_THREADS`, and starts it. The `Bool` reports whether a new thread
was spawned. -/
def spawn_detection_thread_for_ip (ip : String) (g : GlobalState) :
    GlobalState × Bool :=
  if g.threads.any (fun p => p.1 == ip) then (g, false)
  else
    ({ g with
        threads := g.threads ++ [(ip, g.nextThreadId)]
        nextThreadId := g.nextThreadId + 1 }, true)

/-- The observable effect of the listener handling one datagram: whether the
`"PC IP:..."` reply was sent, and the address of a newly spawned worker, if
any. -/
structure ListenerEffect where
  replySent : Bool
  spawned : Option String
  deriving DecidableEq

/-- One iteration of the `while True` body of `handshake_listener_continuous`
for a received message: on a well-formed announcement the reply is sent
unconditionally (before the membership check); then, under `LOCK`, a
not-yet-discovered address is appended to `DISCOVERED_ARDUINO_IPS` and a
worker thread is spawned for it. -/
def handshake_step (g : GlobalState) (msg : String) :
    GlobalState × ListenerEffect :=
  match parse_announcement msg with
  | none => (g, ⟨false, none⟩)
  | some ip =>
    if g.discovered.contains ip then (g, ⟨true, none⟩)
    else
      let g1 := { g with discovered := g.discovered ++ [ip] }
      let r := spawn_detection_thread_for_ip ip g1
      (r.1, ⟨true, if r.2 then some ip else none⟩)

/-- The listener run over a sequence of received datagrams; also collects the
addresses for which a worker was spawned, in order. -/
def run_listener (g : GlobalState) : List String → GlobalState × List String
  | [] => (g, [])
  | m :: ms =>
    let r1 := handshake_step g m
    let r2 := run_listener r1.1 ms
    (r2.1, (match r1.2.spawned with | some ip => [ip] | none => []) ++ r2.2)

/-- `remove_arduino`: under `LOCK`, removes the address from
`DISCOVERED_ARDUINO_IPS` (Python `list.remove`, first occurrence), pops its
`DETECTION_THREADS` handle, and pops its `SHARED_FRAMES_DICT` entry keyed by
the mjpeg URL — each guarded by a membership test as in the source. -/
def remove_arduino (ip : String) (g : GlobalState) : GlobalState :=
  { g with
    discovered :=
      if g.discovered.contains ip then g.discovered.erase ip
      else g.discovered
    threads :=
      if g.threads.any (fun p => p.1 == ip) then dictPop ip g.threads
      else g.threads
    frames :=
      if g.frames.any (fun p => p.1 == mjpeg_url ip) then
        dictPop (mjpeg_url ip) g.frames
      else g.frames }

/-- `add_recent_detection`: append to `RECENT_DETECTIONS`; if the length then
exceeds 50, `pop(0)` the oldest (the head). -/
def add_recent_detection (recent : List DetRecord) (record : DetRecord) :
    List DetRecord :=
  let recent2 := recent ++ [record]
  if recent2.length > 50 then recent2.tail else recent2

/-- `/api/recent_detections`: returns `list(reversed(RECENT_DETECTIONS))`, a
copied snapshot with the newest record first. -/
def api_recent_detections (recent : List DetRecord) : List DetRecord :=
  recent.reverse

/-- The eviction threshold `max_fail_threshold = 5` of `process_stream_loop`;
eviction triggers when `fail_count > max_fail_threshold`. -/
def max_fail_threshold : Nat := 5

/-- The control state of one `process_stream_loop` thread: its local
`fail_count`, whether it is inside the inner read loop (`streaming`), and
whether it has returned after calling `remove_arduino` (`evicted`). -/
structure WorkerState where
  failCount : Nat
  streaming : Bool
  evicted : Bool
  deriving DecidableEq

/-- One interaction of the worker loop with its environment:
`connectFail`/`connectOk` are the outcome of `cv2.VideoCapture` +
`isOpened()`; `readFail` is `cap.read()` returning `ret = False`;
`readOk t f dets` is a successful read at time `t` of frame `f` on which the
external detector returned `dets`. -/
inductive WorkerEvent where
  | connectFail
  | connectOk
  | readFail
  | readOk (t : ℚ) (f : Frame) (dets : List Detection)
  deriving DecidableEq

/-- One step of `process_stream_loop` for device `ip` reacting to an
environment event. Connect events are handled by the outer loop (not
`streaming`), read events by the inner loop (`streaming`); an event that
cannot occur in the current phase leaves the state unchanged. The generic
exception handler of the loop body behaves exactly like `readFail`
(increment, threshold check, release + reconnect) and is subsumed by it.
Step 7 of the body (rate-limited snapshot persistence) only invokes
`RateLimiter.should_save` and the external `save_detection`; it touches none
of the structures modelled here and is specified separately. -/
def worker_step (ip : String) (ws : WorkerState) (g : GlobalState)
    (ev : WorkerEvent) : WorkerState × GlobalState :=
  if ws.evicted then (ws, g)
  else
    match ev with
    | .connectFail =>
      if ws.streaming then (ws, g)
      else
        let fc := ws.failCount + 1
        if fc > max_fail_threshold then
          ({ ws with failCount := fc, evicted := true }, remove_arduino ip g)
        else ({ ws with failCount := fc }, g)
    | .connectOk =>
      if ws.streaming then (ws, g)
      else ({ ws with failCount := 0, streaming := true }, g)
    | .readFail =>
      if ws.streaming then
        let fc := ws.failCount + 1
        if fc > max_fail_threshold then
          ({ ws with failCount := fc, evicted := true }, remove_arduino ip g)
        else ({ ws with failCount := fc, streaming := false }, g)
      else (ws, g)
    | .readOk t f dets =>
      if ws.streaming then
        let g1 := { g with frames := dictPut (mjpeg_url ip) f g.frames }
        let g2 :=
          if dets.isEmpty then g1
          else
            let record : DetRecord := ⟨mjpeg_url ip, t, dets⟩
            { g1 with
                results := g1.results ++ [record]
                recent := add_recent_detection g1.recent record }
        ({ ws with failCount := 0 }, g2)
      else (ws, g)

/-- A worker run over a sequence of environment events. -/
def run_worker (ip : String) (sg : WorkerState × GlobalState) :
    List WorkerEvent → WorkerState × GlobalState
  | [] => sg
  | ev :: evs => run_worker ip (worker_step ip sg.1 sg.2 ev) evs

/-- `postprocess.RateLimiter`: the configured interval and the
`last_save_time` dict from label to the timestamp of the last accepted
save. -/
structure RateLimiter where
  interval : ℚ
  last_save_time : List (String × ℚ)
  deriving DecidableEq

/-- `RateLimiter.should_save(label)` with the call to `time.time()` made an
explicit `now` argument: accepts (and records `now`) when the label has no
entry or `now - last ≥ interval`; otherwise rejects without mutating. -/
def RateLimiter.should_save (rl : RateLimiter) (label : String) (now : ℚ) :
    Bool × RateLimiter :=
  match dictGet label rl.last_save_time with
  | none =>
    (true, { rl with last_save_time := dictPut label now rl.last_save_time })
  | some t =>
    if now - t ≥ rl.interval then
      (true, { rl with last_save_time := dictPut label now rl.last_save_time })
    else (false, rl)

/-! ## Rolling detection log lemmas -/

theorem add_recent_detection_of_lt (recent : List DetRecord) (r : DetRecord)
    (h : recent.length < 50) :
    add_recent_detection recent r = recent ++ [r] := by
  have hgt : ¬ ((recent ++ [r]).length > 50) := by
    rw [List.length_append, List.length_singleton]
    omega
  simp only [add_recent_detection]
  rw [if_neg hgt]

theorem add_recent_detection_of_eq (a : DetRecord) (recent : List DetRecord)
    (r : DetRecord) (h : (a :: recent).length = 50) :
    add_recent_detection (a :: recent) r = recent ++ [r] := by
  rw [List.length_cons] at h
  have hgt : ((a :: recent) ++ [r]).length > 50 := by
    rw [List.length_append, List.length_cons, List.length_singleton]
    omega
  simp only [add_recent_detection]
  rw [if_pos hgt]
  rfl

theorem foldl_add_recent_detection (rs : List DetRecord) :
    ∀ recent : List DetRecord, recent.length ≤ 50 →
      List.foldl add_recent_detection recent rs =
        (recent ++ rs).drop (recent.length + rs.length - 50) := by
  induction rs with
  | nil =>
    intro recent h
    have h0 : recent.length - 50 = 0 := by omega
    simp [h0]
  | cons r rs ih =>
    intro recent h
    rw [List.foldl_cons]
    by_cases h50 : recent.length < 50
    · rw [add_recent_detection_of_lt recent r h50,
        ih (recent ++ [r]) (by simp; omega)]
      have harith : (recent ++ [r]).length + rs.length - 50 =
          recent.length + (r :: rs).length - 50 := by simp; omega
      rw [harith, List.append_assoc]
      rfl
    · have hlen : recent.length = 50 := by omega
      match recent, hlen with
      | a :: recent', hlen =>
        rw [add_recent_detection_of_eq a recent' r hlen,
          ih (recent' ++ [r]) (by simp at hlen ⊢; omega)]
        have h1 : (recent' ++ [r]).length + rs.length - 50 = rs.length := by
          simp at hlen ⊢; omega
        have h2 : (a :: recent').length + (r :: rs).length - 50 =
            rs.length + 1 := by simp at hlen ⊢; omega
        rw [h1, h2]
        simp only [List.cons_append, List.drop_succ_cons, List.append_assoc,
          List.singleton_append, List.nil_append]

/-- C3: the rolling detection log's length is at most 50 after every append
(the head is removed whenever an append makes the length exceed 50), and
after inserting more than 50 records the `/api/recent_detections` snapshot
returns exactly the 50 most recently appended records, newest first. -/
theorem rolling_log_bounded_and_snapshot (recent : List DetRecord)
    (r : DetRecord) (rs : List DetRecord) :
    (recent.length ≤ 50 → (add_recent_detection recent r).length ≤ 50) ∧
    (rs.length > 50 →
      api_recent_detections (List.foldl add_recent_detection [] rs) =
        rs.reverse.take 50) := by
  constructor
  · intro h
    by_cases hgt : (recent ++ [r]).length > 50
    · simp only [add_recent_detection]
      rw [if_pos hgt, List.length_tail, List.length_append,
        List.length_singleton]
      omega
    · simp only [add_recent_detection]
      rw [if_neg hgt, List.length_append, List.length_singleton]
      rw [List.length_append, List.length_singleton] at hgt
      omega
  · intro h
    rw [foldl_add_recent_detection rs [] (by simp)]
    simp only [List.nil_append, List.length_nil, Nat.zero_add]
    rw [api_recent_detections, List.take_reverse]

/-- Witness for `rolling_log_bounded_and_snapshot` at a concrete log and a
concrete 51-record insertion sequence. -/
theorem rolling_log_bounded_and_snapshot_witness :
    (add_recent_detection [] ⟨"http://10.0.0.5/", 0, []⟩).length ≤ 50 ∧
    api_recent_detections
        (List.foldl add_recent_detection []
          (List.replicate 51 (⟨"http://10.0.0.5/", 0, []⟩ : DetRecord))) =
      (List.replicate 51 (⟨"http://10.0.0.5/", 0, []⟩ : DetRecord)).reverse.take
        50 :=
  ⟨(rolling_log_bounded_and_snapshot [] ⟨"http://10.0.0.5/", 0, []⟩
      (List.replicate 51 ⟨"http://10.0.0.5/", 0, []⟩)).1 (by decide),
   (rolling_log_bounded_and_snapshot [] ⟨"http://10.0.0.5/", 0, []⟩
      (List.replicate 51 ⟨"http://10.0.0.5/", 0, []⟩)).2 (by decide)⟩

/-- C5: on the Shared Frame Store, `get` after `remove` is absent, `get`
after `put` returns the frame just stored, and `put` replaces any previous
value for the key unconditionally (last-writer-wins). -/
theorem frame_store_get_put_remove (d : List (String × Frame)) (k : String)
    (f g : Frame) :
    dictGet k (dictPop k d) = none ∧
    dictGet k (dictPut k f d) = some f ∧
    dictGet k (dictPut k f (dictPut k g d)) = some f :=
  ⟨dictGet_dictPop k d, dictGet_dictPut k f d,
    dictGet_dictPut k f (dictPut k g d)⟩

/-! ## Rate limiter lemmas -/

theorem should_save_interval (rl : RateLimiter) (label : String) (now : ℚ) :
    ((rl.should_save label now).2).interval = rl.interval := by
  unfold RateLimiter.should_save
  split
  · rfl
  · split <;> rfl

theorem should_save_accepted_get (rl : RateLimiter) (label : String) (t : ℚ)
    (h : (rl.should_save label t).1 = true) :
    dictGet label ((rl.should_save label t).2.last_save_time) = some t := by
  unfold RateLimiter.should_save at h ⊢
  cases hg : dictGet label rl.last_save_time with
  | none => simp [dictGet_dictPut]
  | some t0 =>
    rw [hg] at h
    by_cases hge : t - t0 ≥ rl.interval
    · simp [hge, dictGet_dictPut]
    · simp [hge] at h

/-- C4: `should_save(label)` at time `now` returns `true` and records `now`
exactly when the label has no prior record or `now - lastSave ≥ interval`;
otherwise it returns `false` and leaves the limiter unchanged. Consequently
an accepted call at `t` followed by one at `t + ε` with `ε < interval` is
rejected, while one at `t + interval` is accepted. -/
theorem rate_limiter_should_save_spec (rl : RateLimiter) (label : String)
    (now t e : ℚ) :
    (dictGet label rl.last_save_time = none →
      (rl.should_save label now).1 = true ∧
      dictGet label ((rl.should_save label now).2.last_save_time) =
        some now) ∧
    (∀ t0, dictGet label rl.last_save_time = some t0 →
      now - t0 ≥ rl.interval →
      (rl.should_save label now).1 = true ∧
      dictGet label ((rl.should_save label now).2.last_save_time) =
        some now) ∧
    (∀ t0, dictGet label rl.last_save_time = some t0 →
      now - t0 < rl.interval →
      rl.should_save label now = (false, rl)) ∧
    ((rl.should_save label t).1 = true → e < rl.interval →
      (((rl.should_save label t).2).should_save label (t + e)).1 = false) ∧
    ((rl.should_save label t).1 = true →
      (((rl.should_save label t).2).should_save label
        (t + rl.interval)).1 = true) := by
  refine ⟨?_, ?_, ?_, ?_, ?_⟩
  · intro h
    simp [RateLimiter.should_save, h, dictGet_dictPut]
  · intro t0 h hge
    simp [RateLimiter.should_save, h, hge, dictGet_dictPut]
  · intro t0 h hlt
    have hnot : ¬ (now - t0 ≥ rl.interval) := not_le.mpr hlt
    simp [RateLimiter.should_save, h, hnot]
  · intro hacc hlt
    have hget := should_save_accepted_get rl label t hacc
    have hint := should_save_interval rl label t
    set rl1 := (rl.should_save label t).2 with hrl1
    have hnot : ¬ rl1.interval ≤ e := by
      rw [hint]
      exact not_le.mpr hlt
    unfold RateLimiter.should_save
    rw [hget]
    simp [hnot]
  · intro hacc
    have hget := should_save_accepted_get rl label t hacc
    have hint := should_save_interval rl label t
    set rl1 := (rl.should_save label t).2 with hrl1
    have hge : rl1.interval ≤ rl.interval := by rw [hint]
    unfold RateLimiter.should_save
    rw [hget]
    simp [hge]

/-- Witness for `rate_limiter_should_save_spec`: a fresh limiter with a
5-second interval accepts label `"car"` at time 0, rejects it at time 1, and
accepts it again at time 5. -/
theorem rate_limiter_should_save_spec_witness :
    ((⟨5, []⟩ : RateLimiter).should_save "car" 0).1 = true ∧
    ((((⟨5, []⟩ : RateLimiter).should_save "car" 0).2).should_save "car"
      (0 + 1)).1 = false ∧
    ((((⟨5, []⟩ : RateLimiter).should_save "car" 0).2).should_save "car"
      (0 + 5)).1 = true :=
  ⟨((rate_limiter_should_save_spec ⟨5, []⟩ "car" 0 0 1).1 (by decide)).1,
   (rate_limiter_should_save_spec ⟨5, []⟩ "car" 0 0 1).2.2.2.1 (by decide)
     (by norm_num),
   (rate_limiter_should_save_spec ⟨5, []⟩ "car" 0 0 1).2.2.2.2 (by decide)⟩

/-! ## Discovery listener / supervisor lemmas -/

theorem spawn_discovered (ip : String) (g : GlobalState) :
    (spawn_detection_thread_for_ip ip g).1.discovered = g.discovered := by
  unfold spawn_detection_thread_for_ip
  split <;> rfl

theorem handshake_step_not_announce (g : GlobalState) (msg : String)
    (h : parse_announcement msg = none) :
    handshake_step g msg = (g, ⟨false, none⟩) := by
  simp [handshake_step, h]

theorem handshake_step_known (g : GlobalState) (msg ip : String)
    (h : parse_announcement msg = some ip)
    (hc : g.discovered.contains ip = true) :
    handshake_step g msg = (g, ⟨true, none⟩) := by
  have hm : ip ∈ g.discovered := by simpa using hc
  simp [handshake_step, h, hm]

theorem handshake_step_thread_present (g : GlobalState) (msg ip : String)
    (h : parse_announcement msg = some ip)
    (hc : g.discovered.contains ip = false)
    (ht : g.threads.any (fun p => p.1 == ip) = true) :
    handshake_step g msg =
      ({ g with discovered := g.discovered ++ [ip] }, ⟨true, none⟩) := by
  have hm : ip ∉ g.discovered := by simpa using hc
  simp [handshake_step, h, hm, spawn_detection_thread_for_ip, ht]

theorem handshake_step_spawn (g : GlobalState) (msg ip : String)
    (h : parse_announcement msg = some ip)
    (hc : g.discovered.contains ip = false)
    (ht : g.threads.any (fun p => p.1 == ip) = false) :
    handshake_step g msg =
      ({ g with
          discovered := g.discovered ++ [ip]
          threads := g.threads ++ [(ip, g.nextThreadId)]
          nextThreadId := g.nextThreadId + 1 }, ⟨true, some ip⟩) := by
  have hm : ip ∉ g.discovered := by simpa using hc
  simp [handshake_step, h, hm, spawn_detection_thread_for_ip, ht]

theorem run_listener_cons (g : GlobalState) (m : String) (ms : List String) :
    run_listener g (m :: ms) =
      ((run_listener (handshake_step g m).1 ms).1,
        (match (handshake_step g m).2.spawned with
          | some ip => [ip]
          | none => []) ++
          (run_listener (handshake_step g m).1 ms).2) := rfl

theorem run_listener_spawn_count (ip : String) (msgs : List String) :
    ∀ g : GlobalState,
      (ip ∈ g.discovered → (run_listener g msgs).2.count ip = 0) ∧
      (run_listener g msgs).2.count ip ≤ 1 := by
  induction msgs with
  | nil =>
    intro g
    exact ⟨fun _ => rfl, by simp [run_listener]⟩
  | cons m ms ih =>
    intro g
    rw [run_listener_cons]
    rcases hp : parse_announcement m with _ | ip'
    · rw [handshake_step_not_announce g m hp]
      simpa using ih g
    · by_cases hc : g.discovered.contains ip' = true
      · rw [handshake_step_known g m ip' hp hc]
        simpa using ih g
      · have hc' : g.discovered.contains ip' = false := by
          cases hcc : g.discovered.contains ip' with
          | false => rfl
          | true => exact absurd hcc hc
        have hnm : ip' ∉ g.discovered := by simpa using hc'
        by_cases ht : g.threads.any (fun p => p.1 == ip') = true
        · rw [handshake_step_thread_present g m ip' hp hc' ht]
          have h1 := ih { g with discovered := g.discovered ++ [ip'] }
          constructor
          · intro hmem
            simpa using h1.1 (by simp; exact Or.inl hmem)
          · simpa using h1.2
        · have ht' : g.threads.any (fun p => p.1 == ip') = false := by
            cases htt : g.threads.any (fun p => p.1 == ip') with
            | false => rfl
            | true => exact absurd htt ht
          rw [handshake_step_spawn g m ip' hp hc' ht']
          have h1 := ih
            { g with
                discovered := g.discovered ++ [ip']
                threads := g.threads ++ [(ip', g.nextThreadId)]
                nextThreadId := g.nextThreadId + 1 }
          constructor
          · intro hmem
            have hne : (ip' == ip) = false := by
              apply beq_eq_false_iff_ne.mpr
              intro he
              exact hnm (he ▸ hmem)
            have h0 := h1.1 (by simp; exact Or.inl hmem)
            simp [List.count_cons, hne, h0]
          · by_cases he : ip' = ip
            · subst he
              have h0 := h1.1 (by simp)
              simp [List.count_cons, h0]
            · have hne : (ip' == ip) = false := beq_eq_false_iff_ne.mpr he
              have h2 := h1.2
              simpa [List.count_cons, hne] using h2

/-- C1: the supervisor spawns at most one stream worker per address across
any sequence of discovery announcements (duplicates included) while the
address remains registered, and a registration attempt for a key whose
worker handle is still present is a no-op: no thread is created and the
state (in particular the handle map) is unchanged. -/
theorem supervisor_at_most_one_worker (g : GlobalState) (ip : String)
    (msgs : List String) :
    (g.threads.any (fun p => p.1 == ip) = true →
      spawn_detection_thread_for_ip ip g = (g, false)) ∧
    (run_listener g msgs).2.count ip ≤ 1 := by
  constructor
  · intro ht
    simp [spawn_detection_thread_for_ip, ht]
  · exact (run_listener_spawn_count ip msgs g).2

/-- Witness for `supervisor_at_most_one_worker`: re-registration of an
address with a live handle is a no-op, and three duplicate announcements of
`10.0.0.5` spawn at most one worker. -/
theorem supervisor_at_most_one_worker_witness :
    spawn_detection_thread_for_ip "10.0.0.5"
        ⟨["10.0.0.5"], [("10.0.0.5", 0)], 1, [], [], []⟩ =
      (⟨["10.0.0.5"], [("10.0.0.5", 0)], 1, [], [], []⟩, false) ∧
    (run_listener ⟨[], [], 0, [], [], []⟩
        ["UNO_R4 IP:10.0.0.5", "UNO_R4 IP:10.0.0.5",
          "UNO_R4 IP:10.0.0.5"]).2.count "10.0.0.5" ≤ 1 :=
  ⟨(supervisor_at_most_one_worker
      ⟨["10.0.0.5"], [("10.0.0.5", 0)], 1, [], [], []⟩ "10.0.0.5" []).1
      (by decide),
   (supervisor_at_most_one_worker ⟨[], [], 0, [], [], []⟩ "10.0.0.5"
      ["UNO_R4 IP:10.0.0.5", "UNO_R4 IP:10.0.0.5",
        "UNO_R4 IP:10.0.0.5"]).2⟩

/-- Counterexample to C6 as stated: a well-formed re-announcement of the
already-active address `10.0.0.5` still triggers the handshake reply
(`replySent = true`), because the listener replies to every well-formed
announcement before checking the discovered list. -/
theorem reannounce_sends_reply_cx :
    (handshake_step ⟨["10.0.0.5"], [("10.0.0.5", 0)], 1, [], [], []⟩
        "UNO_R4 IP:10.0.0.5").2.replySent = true := by decide

/-- C6 (amended): a well-formed announcement whose address is already in the
active device set makes no change to the discovered-address list or the
worker handle map and spawns nothing — but the handshake reply is still
sent, since the reply precedes the membership check. -/
theorem reannounce_active_no_state_change (g : GlobalState) (msg ip : String)
    (h : parse_announcement msg = some ip)
    (hc : g.discovered.contains ip = true) :
    handshake_step g msg = (g, ⟨true, none⟩) :=
  handshake_step_known g msg ip h hc

/-- Witness for `reannounce_active_no_state_change`. -/
theorem reannounce_active_no_state_change_witness :
    handshake_step ⟨["10.0.0.5"], [("10.0.0.5", 0)], 1, [], [], []⟩
        "UNO_R4 IP:10.0.0.5" =
      (⟨["10.0.0.5"], [("10.0.0.5", 0)], 1, [], [], []⟩, ⟨true, none⟩) :=
  reannounce_active_no_state_change
    ⟨["10.0.0.5"], [("10.0.0.5", 0)], 1, [], [], []⟩ "UNO_R4 IP:10.0.0.5"
    "10.0.0.5" (by decide) (by decide)

/-! ## Eviction lemmas -/

theorem remove_arduino_not_mem (g : GlobalState) (ip : String)
    (h : g.discovered.count ip ≤ 1) :
    ip ∉ (remove_arduino ip g).discovered := by
  show ip ∉ (if g.discovered.contains ip then g.discovered.erase ip
    else g.discovered)
  cases hc : g.discovered.contains ip with
  | false =>
    have hnm : ip ∉ g.discovered := by simpa using hc
    simpa using hnm
  | true =>
    have hcnt : (g.discovered.erase ip).count ip = 0 := by
      rw [List.count_erase_self]
      omega
    have hnm := List.count_eq_zero.mp hcnt
    simpa using hnm

theorem remove_arduino_threads_no_key (g : GlobalState) (ip : String) :
    (remove_arduino ip g).threads.any (fun p => p.1 == ip) = false := by
  show (if g.threads.any (fun p => p.1 == ip) then dictPop ip g.threads
    else g.threads).any (fun p => p.1 == ip) = false
  cases ht : g.threads.any (fun p => p.1 == ip) with
  | false => simpa using ht
  | true => simpa using dictPop_hasKey_false ip g.threads

theorem remove_arduino_frames_no_key (g : GlobalState) (ip : String) :
    (remove_arduino ip g).frames.any (fun p => p.1 == mjpeg_url ip) =
      false := by
  show (if g.frames.any (fun p => p.1 == mjpeg_url ip) then
      dictPop (mjpeg_url ip) g.frames
    else g.frames).any (fun p => p.1 == mjpeg_url ip) = false
  cases hf : g.frames.any (fun p => p.1 == mjpeg_url ip) with
  | false => simpa using hf
  | true => simpa using dictPop_hasKey_false (mjpeg_url ip) g.frames

/-- C8: eviction removes the device from all three shared structures — the
discovered-address list, the worker handle map, and the shared frame store
under the device's mjpeg key — and eviction is idempotent. The hypothesis
that the address occurs at most once in the discovered list is maintained by
the listener, which appends an address only when it is absent. -/
theorem evict_removes_all_and_idempotent (g : GlobalState) (ip : String)
    (h : g.discovered.count ip ≤ 1) :
    ip ∉ (remove_arduino ip g).discovered ∧
    dictGet ip (remove_arduino ip g).threads = none ∧
    dictGet (mjpeg_url ip) (remove_arduino ip g).frames = none ∧
    remove_arduino ip (remove_arduino ip g) = remove_arduino ip g := by
  have hd := remove_arduino_not_mem g ip h
  have hth := remove_arduino_threads_no_key g ip
  have hfr := remove_arduino_frames_no_key g ip
  refine ⟨hd, dictGet_eq_none_of_not_hasKey ip _ hth,
    dictGet_eq_none_of_not_hasKey (mjpeg_url ip) _ hfr, ?_⟩
  set g1 := remove_arduino ip g with hg1
  have hc : g1.discovered.contains ip = false := by simpa using hd
  show remove_arduino ip g1 = g1
  unfold remove_arduino
  rw [hc, hth, hfr]
  simp

/-- Witness for `evict_removes_all_and_idempotent` on a concrete state with
one registered device. -/
theorem evict_removes_all_and_idempotent_witness :
    "10.0.0.5" ∉ (remove_arduino "10.0.0.5"
        ⟨["10.0.0.5"], [("10.0.0.5", 0)], 1,
          [("http://10.0.0.5/", [1, 2])], [], []⟩).discovered ∧
    dictGet "10.0.0.5" (remove_arduino "10.0.0.5"
        ⟨["10.0.0.5"], [("10.0.0.5", 0)], 1,
          [("http://10.0.0.5/", [1, 2])], [], []⟩).threads = none ∧
    dictGet (mjpeg_url "10.0.0.5") (remove_arduino "10.0.0.5"
        ⟨["10.0.0.5"], [("10.0.0.5", 0)], 1,
          [("http://10.0.0.5/", [1, 2])], [], []⟩).frames = none ∧
    remove_arduino "10.0.0.5" (remove_arduino "10.0.0.5"
        ⟨["10.0.0.5"], [("10.0.0.5", 0)], 1,
          [("http://10.0.0.5/", [1, 2])], [], []⟩) =
      remove_arduino "10.0.0.5"
        ⟨["10.0.0.5"], [("10.0.0.5", 0)], 1,
          [("http://10.0.0.5/", [1, 2])], [], []⟩ :=
  evict_removes_all_and_idempotent
    ⟨["10.0.0.5"], [("10.0.0.5", 0)], 1, [("http://10.0.0.5/", [1, 2])],
      [], []⟩ "10.0.0.5" (by decide)

/-- C10: after a device has been evicted, a later well-formed announcement
from the same address is handled as a brand-new discovery: the address is
appended to the discovered list again and a fresh worker thread is spawned
— the at-most-one-worker guarantee is per active registration period. The
count hypothesis is the listener's no-duplicates invariant on the
discovered list. -/
theorem reannounce_after_evict_respawns (g : GlobalState) (msg ip : String)
    (h : parse_announcement msg = some ip)
    (hcnt : g.discovered.count ip ≤ 1) :
    handshake_step (remove_arduino ip g) msg =
      ({ remove_arduino ip g with
          discovered := (remove_arduino ip g).discovered ++ [ip]
          threads := (remove_arduino ip g).threads ++
            [(ip, (remove_arduino ip g).nextThreadId)]
          nextThreadId := (remove_arduino ip g).nextThreadId + 1 },
        ⟨true, some ip⟩) := by
  have hd := remove_arduino_not_mem g ip hcnt
  have hc : (remove_arduino ip g).discovered.contains ip = false := by
    simpa using hd
  exact handshake_step_spawn (remove_arduino ip g) msg ip h hc
    (remove_arduino_threads_no_key g ip)

/-- Witness for `reannounce_after_evict_respawns`: evicting `10.0.0.5` and
announcing it again yields a fresh registration and a fresh worker
thread. -/
theorem reannounce_after_evict_respawns_witness :
    handshake_step
        (remove_arduino "10.0.0.5"
          ⟨["10.0.0.5"], [("10.0.0.5", 0)], 1,
            [("http://10.0.0.5/", [1, 2])], [], []⟩)
        "UNO_R4 IP:10.0.0.5" =
      ({ remove_arduino "10.0.0.5"
            ⟨["10.0.0.5"], [("10.0.0.5", 0)], 1,
              [("http://10.0.0.5/", [1, 2])], [], []⟩ with
          discovered := (remove_arduino "10.0.0.5"
            ⟨["10.0.0.5"], [("10.0.0.5", 0)], 1,
              [("http://10.0.0.5/", [1, 2])], [], []⟩).discovered ++
            ["10.0.0.5"]
          threads := (remove_arduino "10.0.0.5"
            ⟨["10.0.0.5"], [("10.0.0.5", 0)], 1,
              [("http://10.0.0.5/", [1, 2])], [], []⟩).threads ++
            [("10.0.0.5", (remove_arduino "10.0.0.5"
              ⟨["10.0.0.5"], [("10.0.0.5", 0)], 1,
                [("http://10.0.0.5/", [1, 2])], [], []⟩).nextThreadId)]
          nextThreadId := (remove_arduino "10.0.0.5"
            ⟨["10.0.0.5"], [("10.0.0.5", 0)], 1,
              [("http://10.0.0.5/", [1, 2])], [], []⟩).nextThreadId + 1 },
        ⟨true, some "10.0.0.5"⟩) :=
  reannounce_after_evict_respawns
    ⟨["10.0.0.5"], [("10.0.0.5", 0)], 1, [("http://10.0.0.5/", [1, 2])],
      [], []⟩ "UNO_R4 IP:10.0.0.5" "10.0.0.5" (by decide) (by decide)

/-! ## Stream worker lemmas -/

theorem run_worker_cons (ip : String) (ws : WorkerState) (g : GlobalState)
    (ev : WorkerEvent) (evs : List WorkerEvent) :
    run_worker ip (ws, g) (ev :: evs) =
      run_worker ip (worker_step ip ws g ev) evs := rfl

theorem run_worker_evicted (ip : String) (evs : List WorkerEvent) :
    ∀ (ws : WorkerState) (g : GlobalState), ws.evicted = true →
      run_worker ip (ws, g) evs = (ws, g) := by
  induction evs with
  | nil => intro ws g _; rfl
  | cons e es ih =>
    intro ws g h
    rw [run_worker_cons]
    have hstep : worker_step ip ws g e = (ws, g) := by
      simp [worker_step, h]
    rw [hstep]
    exact ih ws g h

theorem worker_step_connectFail_le (ip : String) (ws : WorkerState)
    (g : GlobalState) (hs : ws.streaming = false) (he : ws.evicted = false)
    (hn : ws.failCount + 1 ≤ max_fail_threshold) :
    worker_step ip ws g .connectFail =
      ({ ws with failCount := ws.failCount + 1 }, g) := by
  have hngt : ¬ (ws.failCount + 1 > max_fail_threshold) := by omega
  simp [worker_step, he, hs, hngt]

theorem worker_step_connectFail_gt (ip : String) (ws : WorkerState)
    (g : GlobalState) (hs : ws.streaming = false) (he : ws.evicted = false)
    (hn : ws.failCount + 1 > max_fail_threshold) :
    worker_step ip ws g .connectFail =
      ({ ws with failCount := ws.failCount + 1, evicted := true },
        remove_arduino ip g) := by
  simp [worker_step, he, hs, hn]

theorem run_worker_connect_fails_le (ip : String) (n : Nat) :
    ∀ (ws : WorkerState) (g : GlobalState),
      ws.streaming = false → ws.evicted = false →
      ws.failCount + n ≤ max_fail_threshold →
      run_worker ip (ws, g) (List.replicate n .connectFail) =
        ({ ws with failCount := ws.failCount + n }, g) := by
  induction n with
  | zero =>
    intro ws g hs he hn
    show (ws, g) = ({ ws with failCount := ws.failCount + 0 }, g)
    rfl
  | succ n ih =>
    intro ws g hs he hn
    rw [List.replicate_succ, run_worker_cons,
      worker_step_connectFail_le ip ws g hs he (by omega)]
    have hn' : ws.failCount + 1 + n ≤ max_fail_threshold := by omega
    rw [ih { ws with failCount := ws.failCount + 1 } g hs he hn']
    have harith : ws.failCount + 1 + n = ws.failCount + (n + 1) := by omega
    show ({ ws with failCount := ws.failCount + 1 + n }, g) =
      ({ ws with failCount := ws.failCount + (n + 1) }, g)
    rw [harith]

theorem run_worker_connect_fails_gt (ip : String) (n : Nat) :
    ∀ (ws : WorkerState) (g : GlobalState),
      ws.streaming = false → ws.evicted = false →
      ws.failCount ≤ max_fail_threshold →
      ws.failCount + n > max_fail_threshold →
      (run_worker ip (ws, g)
        (List.replicate n .connectFail)).1.evicted = true := by
  induction n with
  | zero =>
    intro ws g hs he hle hgt
    exfalso
    omega
  | succ n ih =>
    intro ws g hs he hle hgt
    rw [List.replicate_succ, run_worker_cons]
    by_cases hev : ws.failCount + 1 > max_fail_threshold
    · rw [worker_step_connectFail_gt ip ws g hs he hev,
        run_worker_evicted ip _ _ _ rfl]
    · have hle' : ws.failCount + 1 ≤ max_fail_threshold := by omega
      rw [worker_step_connectFail_le ip ws g hs he hle']
      have hgt' : ws.failCount + 1 + n > max_fail_threshold := by omega
      exact ih { ws with failCount := ws.failCount + 1 } g hs he hle' hgt'

theorem worker_step_readOk_state (ip : String) (ws : WorkerState)
    (g : GlobalState) (t : ℚ) (f : Frame) (dets : List Detection)
    (hs : ws.streaming = true) (he : ws.evicted = false) :
    (worker_step ip ws g (.readOk t f dets)).1 =
      { ws with failCount := 0 } := by
  simp [worker_step, he, hs]

theorem worker_step_readOk_global (ip : String) (ws : WorkerState)
    (g : GlobalState) (t : ℚ) (f : Frame) (dets : List Detection)
    (hs : ws.streaming = true) (he : ws.evicted = false) :
    (worker_step ip ws g (.readOk t f dets)).2 =
      (if dets.isEmpty then
        { g with frames := dictPut (mjpeg_url ip) f g.frames }
      else
        { g with
            frames := dictPut (mjpeg_url ip) f g.frames
            results := g.results ++ [⟨mjpeg_url ip, t, dets⟩]
            recent := add_recent_detection g.recent
              ⟨mjpeg_url ip, t, dets⟩ }) := by
  by_cases hd : dets.isEmpty
  · simp [worker_step, he, hs, hd]
  · simp [worker_step, he, hs, hd]

/-- Counterexample to C2 as stated: a worker that experiences exactly
`max_fail_threshold = 5` consecutive connect failures (no intervening
successful read) is NOT evicted — it survives with `fail_count = 5`,
because the code evicts only when `fail_count > max_fail_threshold`. -/
theorem five_failures_not_evicted_cx :
    (run_worker "10.0.0.5"
        (⟨0, false, false⟩,
          ⟨["10.0.0.5"], [("10.0.0.5", 0)], 1, [], [], []⟩)
        (List.replicate 5 .connectFail)).1 = ⟨5, false, false⟩ := by decide

/-- C2 (amended): a worker is evicted exactly when its consecutive
connect/read failure count exceeds the threshold 5, i.e. on the 6th
consecutive failure; 5 or fewer consecutive failures never evict, and a
single successful frame read resets the counter to 0 without evicting. -/
theorem worker_eviction_boundary (ip : String) (ws : WorkerState)
    (g : GlobalState) (n : Nat) (hs : ws.streaming = false)
    (he : ws.evicted = false) (h0 : ws.failCount = 0) :
    ((run_worker ip (ws, g) (List.replicate n .connectFail)).1.evicted = true
      ↔ n > max_fail_threshold) ∧
    (∀ (ws' : WorkerState) (t : ℚ) (f : Frame) (dets : List Detection),
      ws'.streaming = true → ws'.evicted = false →
      (worker_step ip ws' g (.readOk t f dets)).1.failCount = 0 ∧
      (worker_step ip ws' g (.readOk t f dets)).1.evicted = false) := by
  constructor
  · constructor
    · intro hev
      by_contra hn
      have hle : n ≤ max_fail_threshold := by omega
      rw [run_worker_connect_fails_le ip n ws g hs he (by omega)] at hev
      have : ws.evicted = true := hev
      rw [he] at this
      exact Bool.false_ne_true this
    · intro hn
      exact run_worker_connect_fails_gt ip n ws g hs he (by omega) (by omega)
  · intro ws' t f dets hs' he'
    rw [worker_step_readOk_state ip ws' g t f dets hs' he']
    exact ⟨rfl, he'⟩

/-- Witness for `worker_eviction_boundary`: six consecutive connect
failures evict, five do not, and a successful read resets the counter. -/
theorem worker_eviction_boundary_witness :
    ((run_worker "10.0.0.5"
        (⟨0, false, false⟩,
          ⟨["10.0.0.5"], [("10.0.0.5", 0)], 1, [], [], []⟩)
        (List.replicate 6 .connectFail)).1.evicted = true) ∧
    (worker_step "10.0.0.5" ⟨4, true, false⟩
        ⟨["10.0.0.5"], [("10.0.0.5", 0)], 1, [], [], []⟩
        (.readOk 0 [5] [])).1.failCount = 0 :=
  ⟨(worker_eviction_boundary "10.0.0.5" ⟨0, false, false⟩
      ⟨["10.0.0.5"], [("10.0.0.5", 0)], 1, [], [], []⟩ 6 rfl rfl rfl).1.mpr
      (by decide),
   ((worker_eviction_boundary "10.0.0.5" ⟨0, false, false⟩
      ⟨["10.0.0.5"], [("10.0.0.5", 0)], 1, [], [], []⟩ 6 rfl rfl rfl).2
      ⟨4, true, false⟩ 0 [5] [] rfl rfl).1⟩

/-- Counterexample to C7 as stated: a frame that decodes successfully but is
empty (`f = []`) is NOT treated as a read failure — from `fail_count = 3`
the worker resets the counter to 0 and stays in the read loop (no
reconnect), publishing the empty frame. -/
theorem empty_frame_resets_counter_cx :
    worker_step "10.0.0.5" ⟨3, true, false⟩
        ⟨["10.0.0.5"], [("10.0.0.5", 0)], 1, [], [], []⟩
        (.readOk 7 [] []) =
      (⟨0, true, false⟩,
        ⟨["10.0.0.5"], [("10.0.0.5", 0)], 1, [("http://10.0.0.5/", [])],
          [], []⟩) := by decide

/-- C7 (amended): in the read loop, only `cap.read()` reporting failure
(`ret = False`) increments the consecutive-failure counter and triggers the
reconnect path; a frame returned successfully — even one that is
empty/zero-size — is processed normally, resetting the counter to 0 and
keeping the worker in the read loop (the code performs no emptiness
check). -/
theorem read_result_controls_counter (ip : String) (ws : WorkerState)
    (g : GlobalState) (t : ℚ) (f : Frame) (dets : List Detection)
    (hs : ws.streaming = true) (he : ws.evicted = false) :
    (worker_step ip ws g (.readOk t f dets)).1.failCount = 0 ∧
    (worker_step ip ws g (.readOk t f dets)).1.streaming = true ∧
    (worker_step ip ws g (.readOk t f dets)).1.evicted = false ∧
    (worker_step ip ws g .readFail).1.failCount = ws.failCount + 1 := by
  rw [worker_step_readOk_state ip ws g t f dets hs he]
  refine ⟨rfl, hs, he, ?_⟩
  by_cases hn : ws.failCount + 1 > max_fail_threshold
  · simp [worker_step, he, hs, hn]
  · simp [worker_step, he, hs, hn]

/-- Witness for `read_result_controls_counter` at an empty frame with the
counter at 3. -/
theorem read_result_controls_counter_witness :
    (worker_step "10.0.0.5" ⟨3, true, false⟩
        ⟨["10.0.0.5"], [("10.0.0.5", 0)], 1, [], [], []⟩
        (.readOk 7 [] [])).1.failCount = 0 ∧
    (worker_step "10.0.0.5" ⟨3, true, false⟩
        ⟨["10.0.0.5"], [("10.0.0.5", 0)], 1, [], [], []⟩
        (.readOk 7 [] [])).1.streaming = true ∧
    (worker_step "10.0.0.5" ⟨3, true, false⟩
        ⟨["10.0.0.5"], [("10.0.0.5", 0)], 1, [], [], []⟩
        (.readOk 7 [] [])).1.evicted = false ∧
    (worker_step "10.0.0.5" ⟨3, true, false⟩
        ⟨["10.0.0.5"], [("10.0.0.5", 0)], 1, [], [], []⟩
        .readFail).1.failCount = 3 + 1 :=
  read_result_controls_counter "10.0.0.5" ⟨3, true, false⟩
    ⟨["10.0.0.5"], [("10.0.0.5", 0)], 1, [], [], []⟩ 7 [] [] rfl rfl

theorem worker_step_results_extends (ip : String) (ws : WorkerState)
    (g : GlobalState) (ev : WorkerEvent) :
    ∃ tl, (worker_step ip ws g ev).2.results = g.results ++ tl := by
  cases hev : ws.evicted with
  | true => exact ⟨[], by simp [worker_step, hev]⟩
  | false =>
    cases ev with
    | connectFail =>
      cases hs : ws.streaming with
      | true => exact ⟨[], by simp [worker_step, hev, hs]⟩
      | false =>
        refine ⟨[], ?_⟩
        by_cases hn : ws.failCount + 1 > max_fail_threshold
        · simp [worker_step, hev, hs, hn, remove_arduino]
        · simp [worker_step, hev, hs, hn]
    | connectOk =>
      cases hs : ws.streaming with
      | true => exact ⟨[], by simp [worker_step, hev, hs]⟩
      | false => exact ⟨[], by simp [worker_step, hev, hs]⟩
    | readFail =>
      cases hs : ws.streaming with
      | false => exact ⟨[], by simp [worker_step, hev, hs]⟩
      | true =>
        refine ⟨[], ?_⟩
        by_cases hn : ws.failCount + 1 > max_fail_threshold
        · simp [worker_step, hev, hs, hn, remove_arduino]
        · simp [worker_step, hev, hs, hn]
    | readOk t f dets =>
      cases hs : ws.streaming with
      | false => exact ⟨[], by simp [worker_step, hev, hs]⟩
      | true =>
        by_cases hd : dets.isEmpty
        · exact ⟨[], by simp [worker_step, hev, hs, hd]⟩
        · exact ⟨[⟨mjpeg_url ip, t, dets⟩],
            by simp [worker_step, hev, hs, hd]⟩

theorem run_worker_results_extends (ip : String) (evs : List WorkerEvent) :
    ∀ (ws : WorkerState) (g : GlobalState),
      ∃ tl, (run_worker ip (ws, g) evs).2.results = g.results ++ tl := by
  induction evs with
  | nil => intro ws g; exact ⟨[], by simp [run_worker]⟩
  | cons e es ih =>
    intro ws g
    rw [run_worker_cons]
    obtain ⟨t1, h1⟩ := worker_step_results_extends ip ws g e
    rcases hstep : worker_step ip ws g e with ⟨ws', g'⟩
    rw [hstep] at h1
    obtain ⟨t2, h2⟩ := ih ws' g'
    exact ⟨t1 ++ t2, by rw [h2, h1, List.append_assoc]⟩

theorem run_worker_readOk_count (ip : String)
    (frames : List (ℚ × Frame × List Detection)) :
    ∀ (ws : WorkerState) (g : GlobalState),
      ws.streaming = true → ws.evicted = false →
      (run_worker ip (ws, g)
          (frames.map (fun x =>
            WorkerEvent.readOk x.1 x.2.1 x.2.2))).2.results.length =
        g.results.length +
          (frames.filter (fun x => !x.2.2.isEmpty)).length := by
  induction frames with
  | nil => intro ws g hs he; simp [run_worker]
  | cons x xs ih =>
    intro ws g hs he
    rw [List.map_cons, run_worker_cons]
    have hsplit : worker_step ip ws g (.readOk x.1 x.2.1 x.2.2) =
        ({ ws with failCount := 0 },
          (worker_step ip ws g (.readOk x.1 x.2.1 x.2.2)).2) := by
      rw [← worker_step_readOk_state ip ws g x.1 x.2.1 x.2.2 hs he,
        Prod.mk.eta]
    rw [hsplit,
      ih { ws with failCount := 0 }
        ((worker_step ip ws g (.readOk x.1 x.2.1 x.2.2)).2) hs he,
      worker_step_readOk_global ip ws g x.1 x.2.1 x.2.2 hs he]
    by_cases hd : x.2.2.isEmpty
    · rw [if_pos hd]
      simp [List.filter_cons, hd]
    · rw [if_neg hd]
      simp [List.filter_cons, hd]
      omega

/-- C9: `RESULTS_STORAGE` is a full, never-trimmed history: any worker run
only ever appends to it; over a run of successfully read frames its length
grows by exactly the number of frames whose detection list is non-empty
(so it grows without bound as such frames keep arriving); and each
non-empty detection frame appends the same record to `RESULTS_STORAGE` and
to the rolling log. -/
theorem results_storage_full_history (ip : String) (ws : WorkerState)
    (g : GlobalState) (evs : List WorkerEvent)
    (fs : List (ℚ × Frame × List Detection)) (t : ℚ) (f : Frame)
    (dets : List Detection) :
    (∃ tl, (run_worker ip (ws, g) evs).2.results = g.results ++ tl) ∧
    (ws.streaming = true → ws.evicted = false →
      (run_worker ip (ws, g)
          (fs.map (fun x =>
            WorkerEvent.readOk x.1 x.2.1 x.2.2))).2.results.length =
        g.results.length +
          (fs.filter (fun x => !x.2.2.isEmpty)).length) ∧
    (ws.streaming = true → ws.evicted = false → dets.isEmpty = false →
      (worker_step ip ws g (.readOk t f dets)).2.results =
        g.results ++ [⟨mjpeg_url ip, t, dets⟩] ∧
      (worker_step ip ws g (.readOk t f dets)).2.recent =
        add_recent_detection g.recent ⟨mjpeg_url ip, t, dets⟩) := by
  refine ⟨run_worker_results_extends ip evs ws g,
    fun hs he => run_worker_readOk_count ip fs ws g hs he,
    fun hs he hd => ?_⟩
  rw [worker_step_readOk_global ip ws g t f dets hs he, if_neg (by simp [hd])]
  exact ⟨rfl, rfl⟩

/-- Witness for `results_storage_full_history`: a streaming worker
processing one frame with a detection and one without appends exactly one
record. -/
theorem results_storage_full_history_witness :
    (∃ tl, (run_worker "10.0.0.5"
        (⟨0, true, false⟩,
          ⟨["10.0.0.5"], [("10.0.0.5", 0)], 1, [], [], []⟩)
        [.readFail]).2.results = ([] : List DetRecord) ++ tl) ∧
    (run_worker "10.0.0.5"
        (⟨0, true, false⟩,
          ⟨["10.0.0.5"], [("10.0.0.5", 0)], 1, [], [], []⟩)
        ([(0, [1], [⟨[0, 0, 1, 1], 1/2, "car"⟩]), (1, [2], [])].map
          (fun x =>
            WorkerEvent.readOk x.1 x.2.1 x.2.2))).2.results.length =
      ([] : List DetRecord).length +
        (([(0, [1], [⟨[0, 0, 1, 1], 1/2, "car"⟩]),
          (1, [2], [])] : List (ℚ × Frame × List Detection)).filter
            (fun x => !x.2.2.isEmpty)).length ∧
    (worker_step "10.0.0.5" ⟨0, true, false⟩
        ⟨["10.0.0.5"], [("10.0.0.5", 0)], 1, [], [], []⟩
        (.readOk 2 [3] [⟨[0, 0, 1, 1], 1/2, "car"⟩])).2.results =
      ([] : List DetRecord) ++
        [⟨mjpeg_url "10.0.0.5", 2, [⟨[0, 0, 1, 1], 1/2, "car"⟩]⟩] ∧
    (worker_step "10.0.0.5" ⟨0, true, false⟩
        ⟨["10.0.0.5"], [("10.0.0.5", 0)], 1, [], [], []⟩
        (.readOk 2 [3] [⟨[0, 0, 1, 1], 1/2, "car"⟩])).2.recent =
      add_recent_detection []
        ⟨mjpeg_url "10.0.0.5", 2, [⟨[0, 0, 1, 1], 1/2, "car"⟩]⟩ :=
  ⟨(results_storage_full_history "10.0.0.5" ⟨0, true, false⟩
      ⟨["10.0.0.5"], [("10.0.0.5", 0)], 1, [], [], []⟩ [.readFail]
      [(0, [1], [⟨[0, 0, 1, 1], 1/2, "car"⟩]), (1, [2], [])] 2 [3]
      [⟨[0, 0, 1, 1], 1/2, "car"⟩]).1,
   (results_storage_full_history "10.0.0.5" ⟨0, true, false⟩
      ⟨["10.0.0.5"], [("10.0.0.5", 0)], 1, [], [], []⟩ [.readFail]
      [(0, [1], [⟨[0, 0, 1, 1], 1/2, "car"⟩]), (1, [2], [])] 2 [3]
      [⟨[0, 0, 1, 1], 1/2, "car"⟩]).2.1 rfl rfl,
   (results_storage_full_history "10.0.0.5" ⟨0, true, false⟩
      ⟨["10.0.0.5"], [("10.0.0.5", 0)], 1, [], [], []⟩ [.readFail]
      [(0, [1], [⟨[0, 0, 1, 1], 1/2, "car"⟩]), (1, [2], [])] 2 [3]
      [⟨[0, 0, 1, 1], 1/2, "car"⟩]).2.2 rfl rfl (by decide)⟩

end LiveInference
